import Mathlib

/-!
Verification development for the AGRIDATA dashboard repository.

The file shallowly embeds the data-cleaning pipeline of `src/app.py`:
the method `AlwaysFreshAPI.standardize_prices` (price parsing and unit
normalization over a pandas DataFrame) and the module-level analysis
block (batch handling, displayed metrics, date parsing).

Modelling conventions:
  * a DataFrame is a row count plus an association list from column
    name to the list of cell values of that column;
  * cell values are strings, exact rationals (standing for the floats
    the source computes; the arithmetic performed by the source on
    prices is exact decimal arithmetic, so `ℚ` is faithful), parsed
    dates, or the missing value `NaN` (`vNull`);
  * pandas column assignment (`df['c'] = ...`) mutates the frame in
    place; it is embedded by explicit state passing, and the frame the
    caller holds after a call is the frame the function returns;
  * `pd.to_numeric(..., errors="coerce")` and friends are embedded as
    `Option`-valued functions.
-/

namespace Agridata

/-- Cell values of a data table: strings, numbers (exact rationals in
place of the floats of the source), parsed dates, and the missing
value `NaN`. -/
inductive Val where
  | vStr (s : String)
  | vNum (q : ℚ)
  | vDate (y m d : Nat)
  | vNull
deriving DecidableEq, Repr

/-- Lowercase an ASCII letter, as Python `str.lower` does on the
characters relevant here. -/
def lowerChar (c : Char) : Char :=
  if 65 ≤ c.toNat ∧ c.toNat ≤ 90 then Char.ofNat (c.toNat + 32) else c

/-- Lowercase a string character by character. -/
def lowerStr (s : String) : String := String.mk (s.data.map lowerChar)

/-- Does `pat` match at the head of `s`? -/
def leadMatch : List Char → List Char → Bool
  | [], _ => true
  | _ :: _, [] => false
  | a :: as, b :: bs => a = b && leadMatch as bs

/-- Does `pat` occur as a contiguous substring of `s`? -/
def occursIn (pat : List Char) : List Char → Bool
  | [] => leadMatch pat []
  | c :: t => leadMatch pat (c :: t) || occursIn pat t

/-- Fuel-driven worker for `replaceAll`; the fuel is an upper bound on
the length of the remaining text, so the recursion is structural and
kernel-computable. -/
def replaceAllAux (pat rep : List Char) : Nat → List Char → List Char
  | _, [] => []
  | 0, s => s
  | Nat.succ f, c :: t =>
    if leadMatch pat (c :: t) then rep ++ replaceAllAux pat rep f ((c :: t).drop pat.length)
    else c :: replaceAllAux pat rep f t

/-- Replace every (non-overlapping, leftmost-first) occurrence of
`pat` by `rep`, as Python `str.replace` with `regex=False` does. -/
def replaceAll (pat rep s : List Char) : List Char :=
  if pat = [] then s else replaceAllAux pat rep s.length s

/-- Pandas `.str.contains(pat, case=False)` for a plain (non-regex
special) pattern: case-insensitive substring test. -/
def containsLC (pat s : String) : Bool :=
  occursIn (lowerStr pat).data (lowerStr s).data

/-- Lines 340 and 341 of `standardize_prices`: strip the euro sign and
turn the comma into a decimal point. -/
def cleanPrice (s : String) : String :=
  String.mk (replaceAll [','] ['.'] (replaceAll ['€'] [] s.data))

/-- Matcher for the regex `\d+\.?\d*` anchored at the head of the
text: one or more digits, an optional dot, then zero or more digits,
each part greedy. Returns the matched text. -/
def matchHead (s : List Char) : Option (List Char) :=
  if s.takeWhile Char.isDigit = [] then none
  else
    match s.drop (s.takeWhile Char.isDigit).length with
    | '.' :: r => some (s.takeWhile Char.isDigit ++ '.' :: r.takeWhile Char.isDigit)
    | _ => some (s.takeWhile Char.isDigit)

/-- Leftmost match of the regex `\d+\.?\d*`, as
`.str.extract(r"(\d+\.?\d*)")` computes it (line 342). -/
def extractNum : List Char → Option (List Char)
  | [] => none
  | c :: t =>
    match matchHead (c :: t) with
    | some m => some m
    | none => extractNum t

/-- Numeric value of a list of decimal digits. -/
def digitsToNat (l : List Char) : Nat :=
  l.foldl (fun n c => 10 * n + (c.toNat - 48)) 0

/-- Integer digits of a matched numeric text. -/
def intPart (l : List Char) : List Char := l.takeWhile Char.isDigit

/-- Fractional digits of a matched numeric text (what follows the
dot, if there is one). -/
def fracPart (l : List Char) : List Char :=
  match l.drop (intPart l).length with
  | '.' :: f => f
  | _ => []

/-- Value of a matched numeric text of shape `digits[.digits]`
(line 343, `pd.to_numeric`; such texts always parse). -/
def parseNum (l : List Char) : ℚ :=
  (digitsToNat (intPart l) : ℚ) + (digitsToNat (fracPart l) : ℚ) / (10 : ℚ) ^ (fracPart l).length

/-- Line 342: the first numeric substring of the cleaned price text,
or `NaN` when there is none. -/
def extractPrice (s : String) : Option String :=
  (extractNum s.data).map String.mk

/-- Lines 340 to 343 composed: the numeric price parsed from one raw
price cell, `none` when unparseable. -/
def parsedPrice (s : String) : Option ℚ :=
  (extractPrice (cleanPrice s)).map (fun t => parseNum t.data)

/-- Python `str()` of a cell, as `astype(str)` applies it. `NaN`
renders as `"nan"`. The rendering of numeric and date cells is not
relied upon by anything below. -/
def astypeStr : Val → String
  | .vStr s => s
  | .vNum q => toString q.num
  | .vDate y m d => toString y ++ "-" ++ toString m ++ "-" ++ toString d
  | .vNull => "nan"

/-- A DataFrame: a row count and the columns, each a name paired with
its list of cells, in order. -/
structure DF where
  nrows : Nat
  cols : List (String × List Val)
deriving DecidableEq, Repr

/-- First column of the given name, if any. -/
def colLookup : List (String × List Val) → String → Option (List Val)
  | [], _ => none
  | (k, v) :: t, c => if k = c then some v else colLookup t c

/-- Membership test of a column name (`c in df.columns`). -/
def DF.hasCol (df : DF) (c : String) : Bool := (colLookup df.cols c).isSome

/-- The cells of a column (`df[c]`); the empty list if absent. -/
def DF.getCol (df : DF) (c : String) : List Val := (colLookup df.cols c).getD []

/-- Overwrite every column named `c` with the cells `vs`, keeping its
position. -/
def replaceCol (c : String) (vs : List Val) : List (String × List Val) → List (String × List Val)
  | [] => []
  | (k, v) :: t => (if k = c then (c, vs) else (k, v)) :: replaceCol c vs t

/-- Column assignment `df[c] = vs`: overwrite the column in place if
present, append it otherwise, as pandas does. -/
def DF.setCol (df : DF) (c : String) (vs : List Val) : DF :=
  if df.hasCol c then
    { df with cols := replaceCol c vs df.cols }
  else
    { df with cols := df.cols ++ [(c, vs)] }

/-- Pandas `df.empty` for record-built frames: no rows. -/
def DF.isEmptyDF (df : DF) : Bool := df.nrows = 0

/-- One cell, by column name and row position. -/
def DF.getCell (df : DF) (c : String) (i : Nat) : Option Val := (df.getCol c)[i]?

/-- Well-formedness: every column has exactly `nrows` cells. -/
def DF.WF (df : DF) : Prop := ∀ p ∈ df.cols, p.2.length = df.nrows

instance (df : DF) : Decidable df.WF := by
  unfold DF.WF; infer_instance

/-- Wrap an optional text as a cell (`NaN` for a failed extraction). -/
def optValStr : Option String → Val
  | some s => .vStr s
  | none => .vNull

/-- Wrap an optional number as a cell (`NaN` for a failed parse). -/
def optValNum : Option ℚ → Val
  | some q => .vNum q
  | none => .vNull

/-- The raw price texts of a frame (line 339, `astype(str)`). -/
def priceRawOf (df : DF) : List String := (df.getCol "price").map astypeStr

/-- The parsed numeric price of each row (lines 340 to 343 composed
per cell: strip the euro sign, comma to dot, extract, parse;
`pd.to_numeric(..., errors="coerce")` makes a failed extraction
`NaN`). -/
def priceNumericOf (df : DF) : List (Option ℚ) :=
  (priceRawOf df).map parsedPrice

/-- The initial `unit_standardized` column (line 346): the unit texts
if a `unit` column exists, the scalar `"€/unité"` broadcast over all
rows otherwise. -/
def unitListOf (df : DF) : List String :=
  if df.hasCol "unit" then (df.getCol "unit").map astypeStr
  else List.replicate df.nrows "€/unité"

/-- The conversion mask (line 350): rows whose unit text contains
`"€/kg"` case-insensitively. -/
def kgMaskOf (df : DF) : List Bool :=
  (unitListOf df).map (fun u => containsLC "€/kg" u)

/-- The `price_standardized` column after the masked update of
line 351: masked rows are multiplied by 100. -/
def priceStdOf (df : DF) : List (Option ℚ) :=
  List.zipWith (fun m p => if m then p.map (fun q => q * 100) else p)
    (kgMaskOf df) (priceNumericOf df)

/-- The `unit_standardized` column after the masked update of
line 352: masked rows are relabelled `"€/100kg"`. -/
def unitStdOf (df : DF) : List String :=
  List.zipWith (fun m u => if m then "€/100kg" else u) (kgMaskOf df) (unitListOf df)

/-- The `unit_display` column (line 355): `"100KG"` rewritten to
`"100kg"`. -/
def unitDisplayOf (df : DF) : List String :=
  (unitStdOf df).map (fun u => String.mk (replaceAll "100KG".data "100kg".data u.data))

/-- `AlwaysFreshAPI.standardize_prices` (src/app.py lines 333 to 357).
Each `setCol` is one column assignment of the source, in source
order; the assigned column values are named above. The two
`price_clean` assignments of lines 340 and 341 are merged into one
(`cleanPrice`), as only the final value of the column is observable
after line 342 overwrites it. -/
def standardize_prices (df : DF) : DF :=
  if df.isEmptyDF || !df.hasCol "price" then df
  else
    let df1 := df.setCol "price_raw" ((priceRawOf df).map Val.vStr)
    let df2 := df1.setCol "price_clean" (((priceRawOf df).map cleanPrice).map Val.vStr)
    let df3 := df2.setCol "price_clean"
      ((((priceRawOf df).map cleanPrice).map extractPrice).map optValStr)
    let df4 := df3.setCol "price_numeric" ((priceNumericOf df).map optValNum)
    let df5 := df4.setCol "unit_standardized" ((unitListOf df).map Val.vStr)
    let df6 := df5.setCol "price_standardized" ((priceNumericOf df).map optValNum)
    let df7 := df6.setCol "price_standardized" ((priceStdOf df).map optValNum)
    let df8 := df7.setCol "unit_standardized" ((unitStdOf df).map Val.vStr)
    df8.setCol "unit_display" ((unitDisplayOf df).map Val.vStr)

/-! Basic lemmas about the frame operations. -/

theorem parseNum_eq (l : List Char) (a b n : ℕ)
    (ha : digitsToNat (intPart l) = a) (hb : digitsToNat (fracPart l) = b)
    (hn : (fracPart l).length = n) :
    parseNum l = (a : ℚ) + (b : ℚ) / (10 : ℚ) ^ n := by
  unfold parseNum; rw [ha, hb, hn]

theorem colLookup_cons (k : String) (v : List Val) (t : List (String × List Val))
    (c : String) :
    colLookup ((k, v) :: t) c = if k = c then some v else colLookup t c := rfl

theorem colLookup_append_right {l : List (String × List Val)} {c : String}
    (h : colLookup l c = none) (vs : List Val) :
    colLookup (l ++ [(c, vs)]) c = some vs := by
  induction l with
  | nil => rw [List.nil_append, colLookup_cons, if_pos rfl]
  | cons p t ih =>
    obtain ⟨k, v⟩ := p
    rw [List.cons_append, colLookup_cons]
    rw [colLookup_cons] at h
    by_cases hk : k = c
    · rw [if_pos hk] at h; exact absurd h (by simp)
    · rw [if_neg hk] at h ⊢; exact ih h

theorem colLookup_append_ne {l : List (String × List Val)} {c c' : String}
    (h : c' ≠ c) (vs : List Val) :
    colLookup (l ++ [(c, vs)]) c' = colLookup l c' := by
  have hcc : ¬(c = c') := fun hc => h hc.symm
  induction l with
  | nil => rw [List.nil_append, colLookup_cons, if_neg hcc]
  | cons p t ih =>
    obtain ⟨k, v⟩ := p
    rw [List.cons_append, colLookup_cons, colLookup_cons]
    by_cases hk : k = c'
    · rw [if_pos hk, if_pos hk]
    · rw [if_neg hk, if_neg hk]; exact ih

theorem colLookup_replace_self {c : String} (vs : List Val) :
    ∀ {l : List (String × List Val)}, (colLookup l c).isSome →
      colLookup (replaceCol c vs l) c = some vs := by
  intro l
  induction l with
  | nil => intro h; simp [colLookup] at h
  | cons p t ih =>
    obtain ⟨k, v⟩ := p
    intro h
    show colLookup ((if k = c then (c, vs) else (k, v)) :: replaceCol c vs t) c = some vs
    by_cases hk : k = c
    · rw [if_pos hk, colLookup_cons, if_pos rfl]
    · rw [if_neg hk, colLookup_cons, if_neg hk]
      rw [colLookup_cons, if_neg hk] at h
      exact ih h

theorem colLookup_replace_ne {c c' : String} (h : c' ≠ c) (vs : List Val) :
    ∀ {l : List (String × List Val)},
      colLookup (replaceCol c vs l) c' = colLookup l c' := by
  have hcc : ¬(c = c') := fun hc => h hc.symm
  intro l
  induction l with
  | nil => rfl
  | cons p t ih =>
    obtain ⟨k, v⟩ := p
    show colLookup ((if k = c then (c, vs) else (k, v)) :: replaceCol c vs t) c' = _
    by_cases hk : k = c
    · rw [if_pos hk, colLookup_cons, colLookup_cons, if_neg hcc]
      have hkc : ¬(k = c') := fun hh => hcc (hk.symm.trans hh)
      rw [if_neg hkc]
      exact ih
    · rw [if_neg hk, colLookup_cons, colLookup_cons]
      by_cases hk' : k = c'
      · rw [if_pos hk', if_pos hk']
      · rw [if_neg hk', if_neg hk']; exact ih

theorem nrows_setCol (df : DF) (c : String) (vs : List Val) :
    (df.setCol c vs).nrows = df.nrows := by
  unfold DF.setCol; split <;> rfl

theorem getCol_setCol_self (df : DF) (c : String) (vs : List Val) :
    (df.setCol c vs).getCol c = vs := by
  unfold DF.setCol DF.getCol DF.hasCol
  split
  · next h => rw [colLookup_replace_self vs h]; rfl
  · next h =>
    rw [colLookup_append_right (by
      cases hl : colLookup df.cols c with
      | none => rfl
      | some w => rw [hl] at h; simp at h)]
    rfl

theorem getCol_setCol_ne (df : DF) {c c' : String} (h : c' ≠ c) (vs : List Val) :
    (df.setCol c vs).getCol c' = df.getCol c' := by
  unfold DF.setCol DF.getCol
  split
  · rw [colLookup_replace_ne h]
  · rw [colLookup_append_ne h]

theorem hasCol_setCol_ne (df : DF) {c c' : String} (h : c' ≠ c) (vs : List Val) :
    (df.setCol c vs).hasCol c' = df.hasCol c' := by
  unfold DF.setCol DF.hasCol
  split
  · rw [colLookup_replace_ne h]
  · rw [colLookup_append_ne h]

/-! Column-level description of `standardize_prices`. -/

theorem std_guard (df : DF) (h : (df.isEmptyDF || !df.hasCol "price") = true) :
    standardize_prices df = df := by
  unfold standardize_prices; rw [if_pos h]

theorem std_nrows (df : DF) : (standardize_prices df).nrows = df.nrows := by
  unfold standardize_prices
  split
  · rfl
  · simp only [nrows_setCol]

theorem std_col_price_numeric (df : DF)
    (h : (df.isEmptyDF || !df.hasCol "price") = false) :
    (standardize_prices df).getCol "price_numeric" = (priceNumericOf df).map optValNum := by
  unfold standardize_prices
  rw [if_neg (by simp [h])]
  rw [getCol_setCol_ne _ (by decide), getCol_setCol_ne _ (by decide),
    getCol_setCol_ne _ (by decide), getCol_setCol_ne _ (by decide),
    getCol_setCol_ne _ (by decide), getCol_setCol_self]

theorem std_col_price_std (df : DF)
    (h : (df.isEmptyDF || !df.hasCol "price") = false) :
    (standardize_prices df).getCol "price_standardized" = (priceStdOf df).map optValNum := by
  unfold standardize_prices
  rw [if_neg (by simp [h])]
  rw [getCol_setCol_ne _ (by decide), getCol_setCol_ne _ (by decide),
    getCol_setCol_self]

theorem std_col_unit_std (df : DF)
    (h : (df.isEmptyDF || !df.hasCol "price") = false) :
    (standardize_prices df).getCol "unit_standardized" = (unitStdOf df).map Val.vStr := by
  unfold standardize_prices
  rw [if_neg (by simp [h])]
  rw [getCol_setCol_ne _ (by decide), getCol_setCol_self]

/-! General description of the price-text pipeline on well-shaped
inputs. -/

theorem not_eq_digit {c : Char} (x : Char) (hx : x.isDigit = false)
    (h : c.isDigit = true) : ¬ x = c := by
  intro he
  rw [he, h] at hx
  exact Bool.noConfusion hx

theorem takeWhile_all (p : Char → Bool) {l : List Char} (h : ∀ c ∈ l, p c = true) :
    l.takeWhile p = l := by
  induction l with
  | nil => rfl
  | cons c t ih =>
    rw [List.takeWhile_cons, h c (by simp)]
    rw [ih (fun x hx => h x (by simp [hx]))]
    rfl

theorem takeWhile_append_stop (p : Char → Bool) {l1 : List Char} (x : Char)
    (l2 : List Char) (h : ∀ c ∈ l1, p c = true) (hx : p x = false) :
    (l1 ++ x :: l2).takeWhile p = l1 := by
  induction l1 with
  | nil => simp [List.takeWhile_cons, hx]
  | cons c t ih =>
    rw [List.cons_append, List.takeWhile_cons, h c (by simp)]
    rw [ih (fun y hy => h y (by simp [hy]))]
    rfl

theorem replaceAllAux_single (p : Char) (rep : List Char) :
    ∀ (s : List Char) (f : Nat), s.length ≤ f →
      replaceAllAux [p] rep f s =
        s.foldr (fun c acc => if p = c then rep ++ acc else c :: acc) [] := by
  intro s
  induction s with
  | nil => intro f _; cases f <;> rfl
  | cons c t ih =>
    intro f hf
    cases f with
    | zero => exact absurd hf (by simp)
    | succ g =>
      show (if leadMatch [p] (c :: t) then
              rep ++ replaceAllAux [p] rep g ((c :: t).drop 1)
            else c :: replaceAllAux [p] rep g t) = _
      have hl : leadMatch [p] (c :: t) = decide (p = c) := by
        show (decide (p = c) && leadMatch [] t) = _
        rw [show leadMatch [] t = true from rfl, Bool.and_true]
      rw [hl, List.foldr_cons, show List.drop 1 (c :: t) = t from rfl]
      by_cases hpc : p = c
      · rw [if_pos (by simp [hpc]), if_pos hpc,
          ih g (Nat.le_of_succ_le_succ hf)]
      · rw [if_neg (by simp [hpc]), if_neg hpc,
          ih g (Nat.le_of_succ_le_succ hf)]

theorem replaceAll_single (p : Char) (rep : List Char) (s : List Char) :
    replaceAll [p] rep s =
      s.foldr (fun c acc => if p = c then rep ++ acc else c :: acc) [] := by
  unfold replaceAll
  rw [if_neg (by simp)]
  exact replaceAllAux_single p rep s s.length (Nat.le_refl _)

theorem foldr_rep_no_occ (p : Char) (rep : List Char) {l : List Char}
    (h : ∀ c ∈ l, ¬ p = c) (init : List Char) :
    l.foldr (fun c acc => if p = c then rep ++ acc else c :: acc) init = l ++ init := by
  induction l with
  | nil => rfl
  | cons c t ih =>
    rw [List.foldr_cons, if_neg (h c (by simp)),
      ih (fun x hx => h x (by simp [hx])), List.cons_append]

theorem cleanPrice_shape (da db : List Char)
    (h2 : ∀ c ∈ da, c.isDigit = true) (h3 : ∀ c ∈ db, c.isDigit = true) :
    cleanPrice (String.mk (da ++ ',' :: (db ++ ['€']))) = String.mk (da ++ '.' :: db) := by
  have e1 : replaceAll ['€'] [] (da ++ ',' :: (db ++ ['€'])) = da ++ ',' :: db := by
    rw [replaceAll_single, List.foldr_append, List.foldr_cons,
      if_neg (by decide : ¬ ('€' = ',')), List.foldr_append,
      show (['€'] : List Char).foldr
        (fun c acc => if '€' = c then [] ++ acc else c :: acc) [] = [] from rfl,
      foldr_rep_no_occ '€' [] (fun c hc => not_eq_digit '€' (by decide) (h3 c hc)),
      List.append_nil,
      foldr_rep_no_occ '€' [] (fun c hc => not_eq_digit '€' (by decide) (h2 c hc))]
  have e2 : replaceAll [','] ['.'] (da ++ ',' :: db) = da ++ '.' :: db := by
    rw [replaceAll_single, List.foldr_append, List.foldr_cons, if_pos rfl,
      foldr_rep_no_occ ',' ['.'] (fun c hc => not_eq_digit ',' (by decide) (h3 c hc)),
      List.append_nil,
      foldr_rep_no_occ ',' ['.'] (fun c hc => not_eq_digit ',' (by decide) (h2 c hc))]
    rfl
  show String.mk (replaceAll [','] ['.']
    (replaceAll ['€'] [] (da ++ ',' :: (db ++ ['€'])))) = _
  rw [e1, e2]

theorem extractNum_all (da db : List Char) (h1 : da ≠ [])
    (h2 : ∀ c ∈ da, c.isDigit = true) (h3 : ∀ c ∈ db, c.isDigit = true) :
    extractNum (da ++ '.' :: db) = some (da ++ '.' :: db) := by
  have htake : (da ++ '.' :: db).takeWhile Char.isDigit = da :=
    takeWhile_append_stop Char.isDigit '.' db h2 (by decide)
  have hdrop : (da ++ '.' :: db).drop da.length = '.' :: db := List.drop_left da _
  cases da with
  | nil => exact absurd rfl h1
  | cons c t =>
    rw [List.cons_append] at htake hdrop ⊢
    show (match matchHead (c :: (t ++ '.' :: db)) with
          | some m => some m
          | none => extractNum (t ++ '.' :: db)) = _
    unfold matchHead
    rw [htake, hdrop]
    rw [if_neg (by simp)]
    show some ((c :: t) ++ '.' :: List.takeWhile Char.isDigit db) = _
    rw [takeWhile_all Char.isDigit h3, List.cons_append]

theorem parseNum_shape (da db : List Char) (h2 : ∀ c ∈ da, c.isDigit = true) :
    parseNum (da ++ '.' :: db) =
      (digitsToNat da : ℚ) + (digitsToNat db : ℚ) / (10 : ℚ) ^ db.length := by
  have hip : intPart (da ++ '.' :: db) = da :=
    takeWhile_append_stop Char.isDigit '.' db h2 (by decide)
  have hfrac : fracPart (da ++ '.' :: db) = db := by
    unfold fracPart
    rw [hip, List.drop_left da _]
    rfl
  unfold parseNum
  rw [hip, hfrac]

/-! The module-level analysis block (src/app.py lines 533 to 701). -/

/-- A decoded JSON record: field names paired with values. -/
abbrev Row := List (String × Val)

/-- First field of the given name in a record, if any. -/
def rowLookup : List (String × Val) → String → Option Val
  | [], _ => none
  | (k, v) :: t, c => if k = c then some v else rowLookup t c

/-- The column names of `pd.DataFrame(records)`: every field name, in
order of first appearance. -/
def collectCols (rows : List Row) : List String :=
  rows.foldl (fun acc r => acc ++ (r.map Prod.fst).filter (fun k => !(acc.contains k))) []

/-- `pd.DataFrame(records)` (line 578): one column per field name,
fields missing from a record becoming `NaN`. -/
def toDF (rows : List Row) : DF :=
  { nrows := rows.length
  , cols := (collectCols rows).map
      (fun c => (c, rows.map (fun r => (rowLookup r c).getD Val.vNull))) }

/-- What the analysis block displays: the processed frame and its
metrics (success branch, lines 577 to 697) or the error message
(lines 699 to 700). -/
inductive Outcome where
  | report (df : DF)
  | errorMessage (m : String)
deriving DecidableEq, Repr

/-- Lines 577 to 579 and 699 to 700: a decoded response `data` (a
list of records, or `none` for JSON `null`) is processed only when
the request reported success AND the list is nonempty
(`status == "success" and data and len(data) > 0`); every other case,
including an empty list from a successful request, runs the error
branch and displays the message. -/
def analysisBlock (status message : String) (data : Option (List Row)) : Outcome :=
  if status = "success" ∧ data.getD [] ≠ [] then
    Outcome.report (standardize_prices (toDF (data.getD [])))
  else Outcome.errorMessage message

/-- Gregorian leap-year rule. -/
def isLeap (y : Nat) : Bool := (y % 4 = 0 && y % 100 ≠ 0) || y % 400 = 0

/-- Days in a month of the proleptic Gregorian calendar. -/
def daysInMonth (y m : Nat) : Nat :=
  if m = 2 then (if isLeap y then 29 else 28)
  else if m = 4 ∨ m = 6 ∨ m = 9 ∨ m = 11 then 30 else 31

/-- Are all characters decimal digits? -/
def allDigits (l : List Char) : Bool := l.all Char.isDigit

/-- Split a text at every slash. -/
def splitOnSlash : List Char → List (List Char)
  | [] => [[]]
  | c :: t =>
    match splitOnSlash t with
    | [] => [[c]]
    | s :: rest => if c = '/' then [] :: s :: rest else (c :: s) :: rest

/-- `strptime`-style parse of one text against the fixed format
`%d/%m/%Y` (line 609): one or two day digits, slash, one or two month
digits, slash, four year digits, and a valid calendar date. The
result is (year, month, day). -/
def parseDMY (s : String) : Option (Nat × Nat × Nat) :=
  match splitOnSlash s.data with
  | [d, m, y] =>
    if d ≠ [] ∧ d.length ≤ 2 ∧ allDigits d ∧ m ≠ [] ∧ m.length ≤ 2 ∧ allDigits m
        ∧ y.length = 4 ∧ allDigits y then
      if 1 ≤ digitsToNat m ∧ digitsToNat m ≤ 12 ∧ 1 ≤ digitsToNat d
          ∧ digitsToNat d ≤ daysInMonth (digitsToNat y) (digitsToNat m) then
        some (digitsToNat y, digitsToNat m, digitsToNat d)
      else none
    else none
  | _ => none

/-- One cell under `pd.to_datetime(..., format="%d/%m/%Y")`. The
outer `Option` is whether the conversion raises for this cell; the
inner `Option` is the converted value, `none` standing for `NaT`:

  * a missing value (`NaN`) is converted to `NaT` without raising;
  * a string cell either parses or makes the whole call raise;
  * an already-converted datetime cell passes through;
  * any other scalar (a number) makes the call raise. -/
def parseDateCell : Val → Option (Option (Nat × Nat × Nat))
  | .vNull => some none
  | .vStr s => (parseDMY s).map some
  | .vDate y m d => some (some (y, m, d))
  | .vNum _ => none

/-- `pd.to_datetime(column, format="%d/%m/%Y")`: the whole column is
converted at once; missing cells become `NaT`, and the call raises
(`none`) exactly when some cell is an unparseable string or a
non-string, non-null scalar. -/
def toDatetimeCol (vs : List Val) : Option (List (Option (Nat × Nat × Nat))) :=
  vs.mapM parseDateCell

/-- Chronological order of (year, month, day) triples. -/
def dateLeB (a b : Nat × Nat × Nat) : Bool :=
  if a.1 ≠ b.1 then decide (a.1 < b.1)
  else if a.2.1 ≠ b.2.1 then decide (a.2.1 < b.2.1)
  else decide (a.2.2 ≤ b.2.2)

/-- `Series.max()` over a datetime column: `NaT` entries are skipped
(`skipna` default), and the result is itself `NaT` (`none`) when no
real date remains. -/
def latestOf (ds : List (Option (Nat × Nat × Nat))) : Option (Nat × Nat × Nat) :=
  match ds.filterMap id with
  | [] => none
  | d :: t => some (t.foldl (fun acc x => if dateLeB acc x then x else acc) d)

/-- Zero-padded two-digit rendering. -/
def pad2 (n : Nat) : String := if n < 10 then "0" ++ toString n else toString n

/-- `strftime("%m/%Y")` (line 610). -/
def formatMY (d : Nat × Nat × Nat) : String := pad2 d.2.1 ++ "/" ++ toString d.1

/-- A converted datetime written back into the frame; `NaT` is the
missing value. -/
def dateVal : Option (Nat × Nat × Nat) → Val
  | some d => Val.vDate d.1 d.2.1 d.2.2
  | none => Val.vNull

/-- Lines 606 to 613: the latest-date metric. Inside a `try`, the
whole `beginDate` column is converted at once with the fixed format
and assigned to `date_parsed`; if the conversion raises (some cell is
an unparseable string), the `except` leaves the metric at `"N/A"` and
the frame untouched. When the conversion succeeds, the `date_parsed`
column is assigned (missing cells as `NaT`) and the maximum is
formatted; a maximum of `NaT` (every cell missing) makes `strftime`
raise after the assignment, so the metric stays `"N/A"` while the
column keeps its assigned value. The result pairs the frame after the
step with the displayed text. -/
def dateMetricStep (df : DF) : DF × String :=
  if df.hasCol "beginDate" then
    match toDatetimeCol (df.getCol "beginDate") with
    | some ds =>
      (df.setCol "date_parsed" (ds.map dateVal),
        match latestOf ds with
        | some d => formatMY d
        | none => "N/A")
    | none => (df, "N/A")
  else (df, "N/A")

/-- Numeric cells of a column, in order. -/
def qCells (vs : List Val) : List ℚ :=
  vs.filterMap (fun v => match v with | .vNum q => some q | _ => none)

/-- Pandas `Series.mean()`: NaN-skipping mean, itself `NaN` (here
`none`) when no cell is numeric. -/
def colMean (vs : List Val) : Option ℚ :=
  if (qCells vs).length = 0 then none
  else some ((qCells vs).sum / ((qCells vs).length : ℚ))

/-- Pandas `Series.nunique()`: the number of distinct non-null
values. -/
def nunique (vs : List Val) : Nat :=
  ((vs.filterMap (fun v => match v with | .vNull => none | w => some w)).dedup).length

/-- The batch-level figures the success branch displays (lines 581 to
613): record count, mean standardized price, countries covered, and
the latest-date text. The volatility percentage of line 600 involves
a square root and is left out; it is a dispersion ratio over the same
price column, not a count of records. -/
structure Summary where
  recordCount : Nat
  avgPrice : Option ℚ
  countriesCovered : Nat
  latestDate : String
deriving DecidableEq, Repr

/-- The displayed batch summary, read off the processed frame. -/
def summaryOf (df : DF) : Summary :=
  { recordCount := df.nrows
  , avgPrice :=
      if df.hasCol "price_standardized" then colMean (df.getCol "price_standardized")
      else none
  , countriesCovered :=
      if df.hasCol "memberStateCode" then nunique (df.getCol "memberStateCode") else 0
  , latestDate := (dateMetricStep df).2 }

/-- The number of records whose price failed to parse: the count the
count the specification asks the batch summary to report. Nothing in the source
computes or displays this quantity; it is defined here only to state
that fact. -/
def unparseableCount (df : DF) : Nat :=
  (df.getCol "price_numeric").countP (fun v => decide (v = Val.vNull))

/-- Pandas column assignment mutates the frame in place and
`standardize_prices` returns the frame it was given, so after the
call the frame the caller holds is the returned one, whether or not
the caller rebinds it. -/
def callerFrameAfterCall (df : DF) : DF := standardize_prices df

/-- The six column names `standardize_prices` assigns. -/
def derivedCols : List String :=
  ["price_raw", "price_clean", "price_numeric", "unit_standardized",
   "price_standardized", "unit_display"]

theorem std_col_other (df : DF) {c : String} (h : c ∉ derivedCols) :
    (standardize_prices df).getCol c = df.getCol c := by
  simp only [derivedCols, List.mem_cons, List.not_mem_nil, not_or] at h
  obtain ⟨h1, h2, h3, h4, h5, h6, -⟩ := h
  unfold standardize_prices
  split
  · rfl
  · rw [getCol_setCol_ne _ h6, getCol_setCol_ne _ h4, getCol_setCol_ne _ h5,
      getCol_setCol_ne _ h5, getCol_setCol_ne _ h4, getCol_setCol_ne _ h3,
      getCol_setCol_ne _ h2, getCol_setCol_ne _ h2, getCol_setCol_ne _ h1]

/-! Cell-level description of `standardize_prices`. -/

theorem hasCol_of_getCell {df : DF} {c : String} {i : Nat} {v : Val}
    (h : df.getCell c i = some v) : df.hasCol c = true := by
  unfold DF.getCell DF.getCol at h
  unfold DF.hasCol
  cases hl : colLookup df.cols c with
  | none => rw [hl] at h; simp at h
  | some vs => rfl

/-- The derived cells of row `i`, expressed from its raw `price` and
`unit` cells: the parsed price, converted and relabelled exactly when
the unit text contains `"€/kg"` case-insensitively. -/
theorem std_cells_unit (df : DF) (i : Nat) (u pv : Val)
    (hne : df.isEmptyDF = false)
    (hpv : df.getCell "price" i = some pv)
    (hu : df.getCell "unit" i = some u) :
    (standardize_prices df).getCell "price_standardized" i =
      some (optValNum (if containsLC "€/kg" (astypeStr u)
        then (parsedPrice (astypeStr pv)).map (fun q => q * 100)
        else parsedPrice (astypeStr pv)))
    ∧ (standardize_prices df).getCell "unit_standardized" i =
      some (Val.vStr (if containsLC "€/kg" (astypeStr u)
        then "€/100kg" else astypeStr u))
    ∧ (standardize_prices df).getCell "price_numeric" i =
      some (optValNum (parsedPrice (astypeStr pv))) := by
  have hpc : df.hasCol "price" = true := hasCol_of_getCell hpv
  have huc : df.hasCol "unit" = true := hasCol_of_getCell hu
  have hg : (df.isEmptyDF || !df.hasCol "price") = false := by rw [hne, hpc]; rfl
  have hul : (unitListOf df)[i]? = some (astypeStr u) := by
    unfold unitListOf
    rw [if_pos huc, List.getElem?_map]
    unfold DF.getCell at hu
    rw [hu]
    rfl
  have hmask : (kgMaskOf df)[i]? = some (containsLC "€/kg" (astypeStr u)) := by
    unfold kgMaskOf
    rw [List.getElem?_map, hul]
    rfl
  have hpn : (priceNumericOf df)[i]? = some (parsedPrice (astypeStr pv)) := by
    unfold priceNumericOf priceRawOf
    rw [List.getElem?_map, List.getElem?_map]
    unfold DF.getCell at hpv
    rw [hpv]
    rfl
  refine ⟨?_, ?_, ?_⟩
  · show ((standardize_prices df).getCol "price_standardized")[i]? = _
    rw [std_col_price_std df hg, List.getElem?_map]
    unfold priceStdOf
    rw [List.getElem?_zipWith, hmask, hpn]
    rfl
  · show ((standardize_prices df).getCol "unit_standardized")[i]? = _
    rw [std_col_unit_std df hg, List.getElem?_map]
    unfold unitStdOf
    rw [List.getElem?_zipWith, hmask, hul]
    rfl
  · show ((standardize_prices df).getCol "price_numeric")[i]? = _
    rw [std_col_price_numeric df hg, List.getElem?_map]
    unfold priceNumericOf priceRawOf
    rw [List.getElem?_map, List.getElem?_map]
    unfold DF.getCell at hpv
    rw [hpv]
    rfl

/-- The price cell of the specification scenario record parses to
45.20. -/
theorem parsedPrice_scenario : parsedPrice "45,20 €" = some ((45 : ℚ) + 20 / 10 ^ 2) := by
  have he : extractPrice (cleanPrice "45,20 €") = some "45.20" := by decide
  unfold parsedPrice
  rw [he]
  show some (parseNum "45.20".data) = _
  rw [show ("45.20".data : List Char) = ['4', '5'] ++ '.' :: ['2', '0'] from by decide,
    parseNum_shape ['4', '5'] ['2', '0'] (by decide),
    show digitsToNat ['4', '5'] = 45 from by decide,
    show digitsToNat ['2', '0'] = 20 from by decide,
    show (['2', '0'] : List Char).length = 2 from rfl]
  norm_num

theorem mapM_eq_none {α β : Type} (f : α → Option β) {l : List α} {x : α}
    (hx : x ∈ l) (hf : f x = none) : l.mapM f = none := by
  induction l with
  | nil => cases hx
  | cons a t ih =>
    rw [List.mapM_cons]
    rcases List.mem_cons.mp hx with h | h
    · subst h
      rw [hf]
      rfl
    · cases ha : f a with
      | none => rfl
      | some b => rw [ih h]; rfl

theorem dateMetricStep_fail (df : DF) {v : Val}
    (hv : v ∈ df.getCol "beginDate") (hfail : parseDateCell v = none) :
    dateMetricStep df = (df, "N/A") := by
  have hnone : toDatetimeCol (df.getCol "beginDate") = none :=
    mapM_eq_none parseDateCell hv hfail
  unfold dateMetricStep
  split
  · rw [hnone]
  · rfl

/-- The latest-date metric text as a function of the `beginDate`
column alone. -/
def dateMetricText (has : Bool) (vs : List Val) : String :=
  if has then
    match toDatetimeCol vs with
    | some ds =>
      match latestOf ds with
      | some d => formatMY d
      | none => "N/A"
    | none => "N/A"
  else "N/A"

theorem dateMetricStep_snd (df : DF) :
    (dateMetricStep df).2 = dateMetricText (df.hasCol "beginDate") (df.getCol "beginDate") := by
  unfold dateMetricStep dateMetricText
  split
  · split <;> rfl
  · rfl

/-- A missing `beginDate` cell does not abort the date step: in a
batch with one dated record and one record lacking the field, the
conversion succeeds with `NaT` for the missing cell, the
`date_parsed` column is assigned, and the metric is the real latest
date. -/
theorem dateMetricStep_missing_cell :
    (dateMetricStep (toDF [[("beginDate", Val.vStr "01/03/2023")],
        [("memberStateCode", Val.vStr "PT")]])).2 = "03/2023"
    ∧ (dateMetricStep (toDF [[("beginDate", Val.vStr "01/03/2023")],
        [("memberStateCode", Val.vStr "PT")]])).1.getCol "date_parsed" =
      [Val.vDate 2023 3 1, Val.vNull] := by decide

/-! Concrete records used by the claim instances. -/

/-- The record of the specification scenario (spec section 8): a
Portuguese beef price with the unit spelled `"EUR/kg"`. -/
def rScenario : Row :=
  [("memberStateCode", Val.vStr "PT"), ("price", Val.vStr "45,20 €"),
   ("unit", Val.vStr "EUR/kg"), ("beginDate", Val.vStr "01/03/2023")]

/-- The scenario record with the unit spelled `"€/kg"`, the spelling
the conversion mask of line 350 actually matches. -/
def rScenarioEuro : Row :=
  [("memberStateCode", Val.vStr "PT"), ("price", Val.vStr "45,20 €"),
   ("unit", Val.vStr "€/kg"), ("beginDate", Val.vStr "01/03/2023")]

/-! Claim C1. -/

/-- C1 counterexample: the scenario record, whose unit reads
`"EUR/kg"`, is NOT converted: its standardized price stays 45.20
(not 4520) and its standardized unit stays `"EUR/kg"` verbatim (not
the per-hundred form), because the mask of line 350 matches the
substring `"€/kg"` with the euro sign, which `"EUR/kg"` does not
contain. -/
theorem C1_counterexample :
    (standardize_prices (toDF [rScenario])).getCell "unit_standardized" 0 =
      some (Val.vStr "EUR/kg")
    ∧ (standardize_prices (toDF [rScenario])).getCell "unit_standardized" 0 ≠
      some (Val.vStr "€/100kg")
    ∧ (standardize_prices (toDF [rScenario])).getCell "price_standardized" 0 =
      some (Val.vNum ((45 : ℚ) + 20 / 10 ^ 2))
    ∧ (45 : ℚ) + 20 / 10 ^ 2 ≠ 4520 := by
  refine ⟨by decide, by decide, ?_, by norm_num⟩
  have h := (std_cells_unit (toDF [rScenario]) 0 (Val.vStr "EUR/kg") (Val.vStr "45,20 €")
    (by decide) (by decide) (by decide)).1
  rw [h, if_neg (by decide),
    show astypeStr (Val.vStr "45,20 €") = "45,20 €" from rfl, parsedPrice_scenario]
  rfl

/-- C1 (corrected): unit conversion multiplies by 100 and relabels to
`"€/100kg"` exactly when the unit text contains the substring
`"€/kg"` (euro sign included); the scenario record with unit spelled
`"€/kg"` and price `"45,20 €"` normalizes to 4520 with the
per-hundred unit, while the `"EUR/kg"` spelling is left unconverted. -/
theorem C1_conversion_with_euro_sign :
    (standardize_prices (toDF [rScenarioEuro])).getCell "price_standardized" 0 =
      some (Val.vNum 4520)
    ∧ (standardize_prices (toDF [rScenarioEuro])).getCell "unit_standardized" 0 =
      some (Val.vStr "€/100kg") := by
  obtain ⟨h1, h2, -⟩ := std_cells_unit (toDF [rScenarioEuro]) 0 (Val.vStr "€/kg")
    (Val.vStr "45,20 €") (by decide) (by decide) (by decide)
  constructor
  · rw [h1, if_pos (by decide),
      show astypeStr (Val.vStr "45,20 €") = "45,20 €" from rfl, parsedPrice_scenario]
    show some (Val.vNum (((45 : ℚ) + 20 / 10 ^ 2) * 100)) = some (Val.vNum 4520)
    have he : ((45 : ℚ) + 20 / 10 ^ 2) * 100 = 4520 := by norm_num
    rw [he]
  · rw [h2, if_pos (by decide)]

/-! Claim C2. -/

/-- C2 (confirmed): a price text of the form digits, comma, digits,
euro sign has the sign stripped, the comma read as the decimal point,
the numeric substring extracted, and parses to the expected decimal
value; in particular `"12,50€"` parses to 12.50 (see the witness). -/
theorem C2_comma_decimal_price (da db : List Char) (h1 : da ≠ [])
    (h2 : ∀ c ∈ da, c.isDigit = true) (h3 : ∀ c ∈ db, c.isDigit = true) :
    parsedPrice (String.mk (da ++ ',' :: (db ++ ['€']))) =
      some ((digitsToNat da : ℚ) + (digitsToNat db : ℚ) / (10 : ℚ) ^ db.length) := by
  unfold parsedPrice
  rw [cleanPrice_shape da db h2 h3]
  show ((extractNum (da ++ '.' :: db)).map String.mk).map (fun t => parseNum t.data) = _
  rw [extractNum_all da db h1 h2 h3]
  show some (parseNum (da ++ '.' :: db)) = _
  rw [parseNum_shape da db h2]

/-- C2 witness: the text `"12,50€"` parses to 25/2 = 12.50. -/
theorem C2_comma_decimal_price_witness :
    String.mk (['1', '2'] ++ ',' :: (['5', '0'] ++ ['€'])) = "12,50€"
    ∧ parsedPrice (String.mk (['1', '2'] ++ ',' :: (['5', '0'] ++ ['€']))) =
      some ((digitsToNat ['1', '2'] : ℚ) + (digitsToNat ['5', '0'] : ℚ)
        / (10 : ℚ) ^ (['5', '0'] : List Char).length)
    ∧ (digitsToNat ['1', '2'] : ℚ) + (digitsToNat ['5', '0'] : ℚ)
        / (10 : ℚ) ^ (['5', '0'] : List Char).length = 25 / 2 := by
  refine ⟨by decide,
    C2_comma_decimal_price ['1', '2'] ['5', '0'] (by decide) (by decide) (by decide), ?_⟩
  rw [show digitsToNat ['1', '2'] = 12 from by decide,
    show digitsToNat ['5', '0'] = 50 from by decide,
    show (['5', '0'] : List Char).length = 2 from rfl]
  norm_num

/-! Claim C7. -/

/-- C7 (confirmed): a unit text that neither contains `"€/kg"`
case-insensitively nor is `"€/100kg"` leaves the standardized price
equal to the parsed numeric price (no conversion) and is kept
verbatim as the standardized unit; since every converted row carries
the standardized unit `"€/100kg"`, such a row is distinguishable from
every converted row by its standardized unit. -/
theorem C7_unrecognized_unit_passthrough (df : DF) (i : Nat) (u : String) (pv : Val)
    (hne : df.isEmptyDF = false)
    (hpv : df.getCell "price" i = some pv)
    (hu : df.getCell "unit" i = some (Val.vStr u))
    (hnc : containsLC "€/kg" u = false) (hn100 : u ≠ "€/100kg") :
    (standardize_prices df).getCell "price_standardized" i =
      (standardize_prices df).getCell "price_numeric" i
    ∧ (standardize_prices df).getCell "unit_standardized" i = some (Val.vStr u)
    ∧ (standardize_prices df).getCell "unit_standardized" i ≠ some (Val.vStr "€/100kg") := by
  obtain ⟨h1, h2, h3⟩ := std_cells_unit df i (Val.vStr u) pv hne hpv hu
  have hcond : ¬ (containsLC "€/kg" (astypeStr (Val.vStr u)) = true) := by
    show ¬ (containsLC "€/kg" u = true)
    rw [hnc]
    exact Bool.false_ne_true
  refine ⟨?_, ?_, ?_⟩
  · rw [h1, h3, if_neg hcond]
  · rw [h2, if_neg hcond]
    rfl
  · rw [h2, if_neg hcond]
    intro hcontra
    exact hn100 (Val.vStr.inj (Option.some.inj hcontra))

/-- A one-record frame with an unrecognized unit text. -/
def dfW7 : DF := toDF [[("price", Val.vStr "5"), ("unit", Val.vStr "EUR/tonne")]]

/-- C7 witness: a record priced `"5"` with unit `"EUR/tonne"` passes
through unchanged with its unit verbatim. -/
theorem C7_unrecognized_unit_passthrough_witness :
    (standardize_prices dfW7).getCell "price_standardized" 0 =
      (standardize_prices dfW7).getCell "price_numeric" 0
    ∧ (standardize_prices dfW7).getCell "unit_standardized" 0 =
      some (Val.vStr "EUR/tonne")
    ∧ (standardize_prices dfW7).getCell "unit_standardized" 0 ≠
      some (Val.vStr "€/100kg") :=
  C7_unrecognized_unit_passthrough dfW7 0 "EUR/tonne" (Val.vStr "5")
    (by decide) (by decide) (by decide) (by decide) (by decide)

/-! Claim C9. -/

/-- C9 (confirmed): conversion triggers exactly when the unit text
contains the substring `"€/kg"` case-insensitively: the standardized
price is the parsed price times 100 and the unit is relabelled
`"€/100kg"` when it does, and both pass through untouched when it
does not; in particular `"EUR/kg"` does not contain the substring
and is left unconverted. -/
theorem C9_conversion_iff_substring (df : DF) (i : Nat) (u pv : Val)
    (hne : df.isEmptyDF = false)
    (hpv : df.getCell "price" i = some pv)
    (hu : df.getCell "unit" i = some u) :
    (standardize_prices df).getCell "price_standardized" i =
      some (optValNum (if containsLC "€/kg" (astypeStr u)
        then (parsedPrice (astypeStr pv)).map (fun q => q * 100)
        else parsedPrice (astypeStr pv)))
    ∧ (standardize_prices df).getCell "unit_standardized" i =
      some (Val.vStr (if containsLC "€/kg" (astypeStr u)
        then "€/100kg" else astypeStr u))
    ∧ containsLC "€/kg" "EUR/kg" = false := by
  obtain ⟨a, b, -⟩ := std_cells_unit df i u pv hne hpv hu
  exact ⟨a, b, by decide⟩

/-- A one-record frame whose unit contains `"€/KG"` inside a longer
text. -/
def dfW9 : DF := toDF [[("price", Val.vStr "2,5"), ("unit", Val.vStr "xx €/KG")]]

/-- C9 witness: a unit text containing `"€/KG"` (different case,
inside a longer text) is converted and relabelled. -/
theorem C9_conversion_iff_substring_witness :
    (standardize_prices dfW9).getCell "price_standardized" 0 =
      some (optValNum (if containsLC "€/kg" (astypeStr (Val.vStr "xx €/KG"))
        then (parsedPrice (astypeStr (Val.vStr "2,5"))).map (fun q => q * 100)
        else parsedPrice (astypeStr (Val.vStr "2,5"))))
    ∧ (standardize_prices dfW9).getCell "unit_standardized" 0 =
      some (Val.vStr (if containsLC "€/kg" (astypeStr (Val.vStr "xx €/KG"))
        then "€/100kg" else astypeStr (Val.vStr "xx €/KG")))
    ∧ containsLC "€/kg" "EUR/kg" = false :=
  C9_conversion_iff_substring dfW9 0 (Val.vStr "xx €/KG") (Val.vStr "2,5")
    (by decide) (by decide) (by decide)

/-! Claim C3. -/

/-- C3 counterexample: the batch of two identical scenario records
(same country, price, unit and date — the specification scenario) is
processed to a frame that still has BOTH records: the output count is
2, not 1; no deduplication happens anywhere in the pipeline and no
duplicate-removed count exists. -/
theorem C3_counterexample :
    (standardize_prices (toDF [rScenario, rScenario])).nrows = 2
    ∧ ¬ (standardize_prices (toDF [rScenario, rScenario])).nrows = 1 := by decide

/-- C3 (corrected): the analysis block performs no deduplication:
every record of a successfully fetched nonempty batch is kept, the
processed frame has exactly as many rows as the input batch
(duplicates included), and the displayed record count is that same
number. -/
theorem C3_no_dedup_all_records_kept (status m : String) (rows : List Row)
    (hs : status = "success") (hr : rows ≠ []) :
    analysisBlock status m (some rows) = Outcome.report (standardize_prices (toDF rows))
    ∧ (standardize_prices (toDF rows)).nrows = rows.length := by
  constructor
  · unfold analysisBlock
    rw [if_pos ⟨hs, hr⟩]
    rfl
  · rw [std_nrows]
    rfl

/-- C3 witness: the duplicate pair goes through the success branch
and both copies are kept (row count 2). -/
theorem C3_no_dedup_all_records_kept_witness :
    analysisBlock "success" "x" (some [rScenario, rScenario]) =
      Outcome.report (standardize_prices (toDF [rScenario, rScenario]))
    ∧ (standardize_prices (toDF [rScenario, rScenario])).nrows =
      ([rScenario, rScenario] : List Row).length :=
  C3_no_dedup_all_records_kept "success" "x" [rScenario, rScenario] rfl (by decide)

/-! Claim C4. -/

/-- A record with a parseable explicit date and a year and week
pair. -/
def rowGoodDateWeek : Row :=
  [("beginDate", Val.vStr "01/03/2023"), ("year", Val.vStr "2023"),
   ("week", Val.vStr "10")]

/-- A record with an unparseable explicit date and a year and week
pair. -/
def rowBadDateWeek : Row :=
  [("beginDate", Val.vStr "bad"), ("year", Val.vStr "2023"),
   ("week", Val.vStr "11")]

/-- C4 counterexample: in a batch holding one record with a valid
explicit date and one with an invalid one (both carrying year and
week fields), the date step fails AS A WHOLE: the frame gains no
`date_parsed` column and the metric is `"N/A"`, even though the first
date of the first record parses on its own and both records have a year and week
pair no rule ever reads — no record falls through to any further
rule. -/
theorem C4_counterexample :
    dateMetricStep (toDF [rowGoodDateWeek, rowBadDateWeek]) =
      (toDF [rowGoodDateWeek, rowBadDateWeek], "N/A")
    ∧ (dateMetricStep (toDF [rowGoodDateWeek, rowBadDateWeek])).1.hasCol "date_parsed" = false
    ∧ parseDMY "01/03/2023" = some (2023, 3, 1)
    ∧ parseDMY "bad" = none := by decide

/-- C4 (corrected): time resolution reads only the explicit
`beginDate` column, converted with the single fixed day/month/year
format; year and week fields are never consulted (the metric depends
only on the `beginDate` column); and when any one cell of the column
makes the conversion raise — an unparseable string, as opposed to a
missing value, which merely becomes `NaT` — the whole step is
abandoned: the frame is returned untouched with the `"N/A"` metric,
instead of the failing record falling through to another rule. -/
theorem C4_date_parse_failure_aborts_step (df : DF) (v : Val)
    (hv : v ∈ df.getCol "beginDate") (hfail : parseDateCell v = none) :
    dateMetricStep df = (df, "N/A")
    ∧ ∀ df2 : DF, df.hasCol "beginDate" = df2.hasCol "beginDate" →
        df.getCol "beginDate" = df2.getCol "beginDate" →
        (dateMetricStep df).2 = (dateMetricStep df2).2 := by
  refine ⟨dateMetricStep_fail df hv hfail, ?_⟩
  intro df2 h1 h2
  rw [dateMetricStep_snd, dateMetricStep_snd, h1, h2]

/-- A record with only an unparseable date. -/
def rowBadDateOnly : Row := [("beginDate", Val.vStr "nope")]

/-- A record with the same unparseable date plus year and week
fields. -/
def rowBadDateFull : Row :=
  [("beginDate", Val.vStr "nope"), ("year", Val.vStr "2023"),
   ("week", Val.vStr "11")]

/-- C4 witness: on a record whose date is unparseable the step
returns the frame untouched with `"N/A"`, and removing the year and
week fields leaves the metric unchanged. -/
theorem C4_date_parse_failure_aborts_step_witness :
    dateMetricStep (toDF [rowBadDateFull]) = (toDF [rowBadDateFull], "N/A")
    ∧ (dateMetricStep (toDF [rowBadDateFull])).2 =
      (dateMetricStep (toDF [rowBadDateOnly])).2 :=
  ⟨(C4_date_parse_failure_aborts_step (toDF [rowBadDateFull]) (Val.vStr "nope")
      (by decide) (by decide)).1,
   (C4_date_parse_failure_aborts_step (toDF [rowBadDateFull]) (Val.vStr "nope")
      (by decide) (by decide)).2 (toDF [rowBadDateOnly]) (by decide) (by decide)⟩

/-! Claim C5. -/

/-- C5 counterexample: an empty array from a successful request does
NOT yield an empty report with zero counts — the analysis block takes
the error branch and displays the message. -/
theorem C5_counterexample :
    analysisBlock "success" "OK" (some []) = Outcome.errorMessage "OK" := by decide

/-- C5 (corrected): for an empty-array or null decoded batch, even
with a successful request status, the analysis block runs the error
branch and displays the error message; no output sequence and no
summary are produced. -/
theorem C5_empty_batch_takes_error_branch (m : String) :
    analysisBlock "success" m (some []) = Outcome.errorMessage m
    ∧ analysisBlock "success" m none = Outcome.errorMessage m := by
  constructor <;> (unfold analysisBlock; rw [if_neg (by simp)])

/-- C5 witness: at the concrete message text returned by a
successful request, both the empty array and the null batch land in
the error branch. -/
theorem C5_empty_batch_takes_error_branch_witness :
    analysisBlock "success" "no data" (some []) = Outcome.errorMessage "no data"
    ∧ analysisBlock "success" "no data" none = Outcome.errorMessage "no data" :=
  C5_empty_batch_takes_error_branch "no data"

/-! Claim C6. -/

/-- C6 (corrected): a record whose price text fails to parse
(including the empty string) gets the absent value `NaN` as its
numeric price — never zero (the whole pipeline is a total function,
so no exception is ever raised); the batch-level aggregation of this
outcome claimed by the specification does not exist in the code (see
the counterexample). -/
theorem C6_unparseable_price_absent (df : DF) (i : Nat) (pv : Val)
    (hne : df.isEmptyDF = false)
    (hpv : df.getCell "price" i = some pv)
    (hfail : parsedPrice (astypeStr pv) = none) :
    (standardize_prices df).getCell "price_numeric" i = some Val.vNull
    ∧ (standardize_prices df).getCell "price_numeric" i ≠ some (Val.vNum 0) := by
  have hpc := hasCol_of_getCell hpv
  have hg : (df.isEmptyDF || !df.hasCol "price") = false := by rw [hne, hpc]; rfl
  have hcell : (standardize_prices df).getCell "price_numeric" i =
      some (optValNum (parsedPrice (astypeStr pv))) := by
    show ((standardize_prices df).getCol "price_numeric")[i]? = _
    rw [std_col_price_numeric df hg, List.getElem?_map]
    unfold priceNumericOf priceRawOf
    rw [List.getElem?_map, List.getElem?_map]
    unfold DF.getCell at hpv
    rw [hpv]
    rfl
  rw [hcell, hfail]
  exact ⟨rfl, by simp [optValNum]⟩

/-- A one-record frame whose price is the empty string. -/
def dfW6 : DF := toDF [[("price", Val.vStr "")]]

/-- C6 witness: the empty-string price yields `NaN`, not zero. -/
theorem C6_unparseable_price_absent_witness :
    (standardize_prices dfW6).getCell "price_numeric" 0 = some Val.vNull
    ∧ (standardize_prices dfW6).getCell "price_numeric" 0 ≠ some (Val.vNum 0) :=
  C6_unparseable_price_absent dfW6 0 (Val.vStr "") (by decide) (by decide) (by decide)

/-- A record with a parseable price of 10.00. -/
def rowTen : Row :=
  [("memberStateCode", Val.vStr "PT"), ("price", Val.vStr "10,00 €"),
   ("beginDate", Val.vStr "01/03/2023")]

/-- A record with an empty (unparseable) price. -/
def rowEmptyPrice : Row :=
  [("memberStateCode", Val.vStr "PT"), ("price", Val.vStr ""),
   ("beginDate", Val.vStr "01/03/2023")]

/-- Three parseable and two unparseable prices, one country. -/
def batchC6 : List Row := [rowTen, rowTen, rowTen, rowEmptyPrice, rowEmptyPrice]

/-- C6 counterexample: in a batch with exactly 2 unparseable prices,
every batch-level figure the success branch displays — record count
5, mean price 10, countries covered 1, latest date `"03/2023"` — is
different from 2: the unparseable outcome is not aggregated into any
batch-level count the code produces. -/
theorem C6_counterexample :
    unparseableCount (standardize_prices (toDF batchC6)) = 2
    ∧ (summaryOf (standardize_prices (toDF batchC6))).recordCount = 5
    ∧ (summaryOf (standardize_prices (toDF batchC6))).countriesCovered = 1
    ∧ (summaryOf (standardize_prices (toDF batchC6))).latestDate = "03/2023"
    ∧ (summaryOf (standardize_prices (toDF batchC6))).avgPrice = some 10
    ∧ (5 : Nat) ≠ 2 ∧ (1 : Nat) ≠ 2 ∧ some (10 : ℚ) ≠ some (2 : ℚ) := by
  refine ⟨by decide, by decide, by decide, by decide, ?_, by decide, by decide, ?_⟩
  · show (if (standardize_prices (toDF batchC6)).hasCol "price_standardized" = true
        then colMean ((standardize_prices (toDF batchC6)).getCol "price_standardized")
        else none) = some 10
    rw [if_pos (by decide)]
    have hcol : (standardize_prices (toDF batchC6)).getCol "price_standardized" =
        [Val.vNum (parseNum "10.00".data), Val.vNum (parseNum "10.00".data),
         Val.vNum (parseNum "10.00".data), Val.vNull, Val.vNull] := rfl
    rw [hcol]
    unfold colMean
    rw [if_neg (by decide)]
    have hA : parseNum "10.00".data = (10 : ℚ) + 0 / 10 ^ 2 := by
      rw [show ("10.00".data : List Char) = ['1', '0'] ++ '.' :: ['0', '0'] from by decide,
        parseNum_shape ['1', '0'] ['0', '0'] (by decide),
        show digitsToNat ['1', '0'] = 10 from by decide,
        show digitsToNat ['0', '0'] = 0 from by decide,
        show (['0', '0'] : List Char).length = 2 from rfl]
      norm_num
    show some ((parseNum "10.00".data + (parseNum "10.00".data +
      (parseNum "10.00".data + 0))) / ((3 : ℕ) : ℚ)) = some 10
    rw [hA]
    norm_num
  · intro h
    exact absurd (Option.some.inj h) (by norm_num)

/-! Claim C8. -/

/-- A one-record frame with an unparseable price text. -/
def dfM8 : DF := toDF [[("price", Val.vStr "n/a")]]

/-- C8 counterexample: pandas column assignment mutates the frame in
place, so after the call the frame the caller holds is the returned
one — and it differs from the frame passed in (it has gained the
derived columns): the raw input is mutated, not left unchanged. -/
theorem C8_counterexample : callerFrameAfterCall dfM8 ≠ dfM8 := by decide

/-- C8 (corrected): `standardize_prices` mutates the frame of the caller
in place by adding the six derived columns, so the object held by the caller is
changed; however every column other than the six derived ones — in
particular every raw input column — keeps exactly its original cells,
and the row count is unchanged. -/
theorem C8_raw_fields_preserved (df : DF) {c : String} (h : c ∉ derivedCols) :
    (standardize_prices df).getCol c = df.getCol c
    ∧ (standardize_prices df).nrows = df.nrows :=
  ⟨std_col_other df h, std_nrows df⟩

/-- C8 witness: the raw `price` and `memberStateCode` columns of the
scenario frame are untouched. -/
theorem C8_raw_fields_preserved_witness :
    ((standardize_prices (toDF [rScenario])).getCol "price" =
      (toDF [rScenario]).getCol "price"
    ∧ (standardize_prices (toDF [rScenario])).nrows = (toDF [rScenario]).nrows)
    ∧ ((standardize_prices (toDF [rScenario])).getCol "memberStateCode" =
      (toDF [rScenario]).getCol "memberStateCode"
    ∧ (standardize_prices (toDF [rScenario])).nrows = (toDF [rScenario]).nrows) :=
  ⟨C8_raw_fields_preserved (toDF [rScenario]) (by decide),
   C8_raw_fields_preserved (toDF [rScenario]) (by decide)⟩

/-! Claim C10. -/

/-- C10 (confirmed): on an empty frame, or one without a `price`
column, `standardize_prices` returns its argument unchanged — no
derived column and no placeholder unit is added. -/
theorem C10_no_price_identity (df : DF)
    (h : df.isEmptyDF = true ∨ df.hasCol "price" = false) :
    standardize_prices df = df := by
  apply std_guard
  rcases h with h | h <;> simp [h]

/-- C10 witness: the empty frame and a one-row frame with only a
`unit` column both come back exactly as given. -/
theorem C10_no_price_identity_witness :
    standardize_prices (DF.mk 0 []) = DF.mk 0 []
    ∧ standardize_prices (DF.mk 1 [("unit", [Val.vStr "EUR/kg"])]) =
      DF.mk 1 [("unit", [Val.vStr "EUR/kg"])] :=
  ⟨C10_no_price_identity _ (Or.inl (by decide)),
   C10_no_price_identity _ (Or.inr (by decide))⟩

end Agridata
